import Mathlib

/-!
Verification of quote-printer: the sort-key orderer, the table resolver and the
lookup flows, over a shallow embedding of `main.go`.

* Go `string` values are embedded as Lean `String`.  Every string the program
  handles (account numbers, DynamoDB `S` attribute values, the UUID argument) is
  valid UTF-8; on valid UTF-8 Go's bytewise comparison orders strings by code
  point, which is the order of `String`, and a byte-level occurrence of the ASCII
  text `STATE` is the same as an occurrence of those five characters.
* `strings.Contains` and `slices.Sort` belong to the Go standard library and are
  embedded by their documented behaviour (substring test, ascending sort).
* `log.Fatalf` and a failed type assertion end the process; a flow returns
  `Except Abort _` together with the trace of external calls made so far.
-/

namespace QuotePrinter

/-! ## Standard-library operations used by `orderPolicySortKeys` -/

/-- Scan of `strings.Contains` over the characters of the subject: true when
`substr` is a prefix of the remaining text at some position. -/
def containsFrom (substr : List Char) : List Char → Bool
  | [] => substr.isPrefixOf []
  | c :: cs => substr.isPrefixOf (c :: cs) || containsFrom substr cs

/-- Go `strings.Contains(s, substr)`: reports whether `substr` is within `s`. -/
def stringsContains (s substr : String) : Bool :=
  containsFrom substr.toList s.toList

/-- Lexicographic comparison of two character sequences, the first strictly
below the second. -/
def lessChars : List Char → List Char → Bool
  | _, [] => false
  | [], _ :: _ => true
  | a :: as, b :: bs => if a = b then lessChars as bs else decide (a < b)

/-- Go `a < b` on strings (`cmp.Less`, the comparison `slices.Sort` uses). -/
def stringLess (a b : String) : Bool :=
  lessChars a.toList b.toList

/-- Go `slices.Sort` on a `[]string`: the slice in ascending order, no element
strictly above a later one.  Strings that compare equal are identical, so the
ascending arrangement is unique and does not depend on the sorting algorithm of
the library. -/
def slicesSort (xs : List String) : List String :=
  xs.insertionSort (fun a b => stringLess b a = false)

/-! ## `orderPolicySortKeys` (main.go 243-267) -/

/-- Loop of lines 251-257: walks `sortKeys` in order, appending each key to
`stateKeys` when it contains `STATE` and to `nonStateKeys` otherwise. -/
def splitKeys : List String → List String → List String → List String × List String
  | [], stateKeys, nonStateKeys => (stateKeys, nonStateKeys)
  | sk :: rest, stateKeys, nonStateKeys =>
    if stringsContains sk "STATE" then
      splitKeys rest (stateKeys ++ [sk]) nonStateKeys
    else
      splitKeys rest stateKeys (nonStateKeys ++ [sk])

/-- Function `orderPolicySortKeys`. -/
def orderPolicySortKeys (sortKeys : List String) : List String :=
  if sortKeys.length < 2 then
    sortKeys
  else
    let (stateKeys, nonStateKeys) := splitKeys sortKeys [] []
    let nonStateKeys := slicesSort nonStateKeys
    let stateKeys := slicesSort stateKeys
    let finalSortKeys : List String := []
    let finalSortKeys := finalSortKeys ++ stateKeys
    let finalSortKeys := finalSortKeys ++ nonStateKeys
    finalSortKeys

/-- Test of line 252 on one key: it contains the text `STATE`. -/
abbrev isState (sk : String) : Bool := stringsContains sk "STATE"

/-! ## Process termination, external collaborators and the trace of a run -/

/-- Ways a run ends before its normal return. -/
inductive Abort where
  /-- Call of `log.Fatalf` / `log.Fatal` with the logged message; the process exits. -/
  | fatal (msg : String)
  /-- Run-time panic of a type assertion without the comma-ok form. -/
  | typeAssertionPanic
  deriving DecidableEq, Repr

/-- A DynamoDB attribute value as far as the program looks into it. -/
inductive AttributeValue where
  /-- Non-nil `*types.AttributeValueMemberS` holding `Value`. -/
  | memberS (value : String)
  /-- Nil pointer of type `*types.AttributeValueMemberS`. -/
  | nilMemberS
  /-- Value of any other dynamic type. -/
  | otherMember
  deriving DecidableEq, Repr

/-- Go `map[string]types.AttributeValue`, one entry per attribute name. -/
abbrev Item := List (String × AttributeValue)

/-- Struct `CLIArguments` (main.go 195-199). -/
structure CLIArguments where
  scanForPolicy : Bool
  idToGet : String
  autoSelectLatestState : Bool
  deriving DecidableEq, Repr

/-- Calls a run makes to the outside, in the order they happen. -/
inductive Event where
  /-- Call `config.LoadDefaultConfig`. -/
  | loadDefaultConfig
  /-- Call `stsClient.GetCallerIdentity`. -/
  | getCallerIdentity
  /-- Call `dynamoDBClient.Query` on a table with the value bound to `:pkval`. -/
  | query (tableName pkval : String)
  /-- Call `dynamoDBClient.GetItem` on a table with the key `(_pk, _sk)`. -/
  | getItem (tableName pk sk : String)
  /-- Call `promptui.Select.Run` with its label and items. -/
  | prompt (label : String) (items : List String)
  /-- Call `pretty.Println` with the formatted text. -/
  | println (text : String)
  deriving DecidableEq, Repr

/-- Answers of the external collaborators.  `Record` stands for the generic
`map[string]interface{}` the store's item is unmarshalled into; the program
never looks inside it. -/
structure World (Record : Type) where
  /-- Error of `config.LoadDefaultConfig`, if any. -/
  loadDefaultConfig : Option String
  /-- Answer of `GetCallerIdentity`: an error, or the `Account` field (may be nil). -/
  getCallerIdentity : Except String (Option String)
  /-- Answer of `Query` for a table and partition-key value: an error or `Items`. -/
  query : String → String → Except String (List Item)
  /-- Answer of `GetItem` for a table, `_pk` and `_sk`: an error or `Item`. -/
  getItem : String → String → String → Except String Item
  /-- Outcome of `attributevalue.UnmarshalMap`. -/
  unmarshalMap : Item → Except String Record
  /-- Answer of the prompt for the shown items: the choice and the error, if any. -/
  promptRun : List String → String × Option String
  /-- Outcome of the colour formatter `Marshal`. -/
  marshal : Record → Except String String

/-- A computation that extends the trace of external calls and either returns a
value or ends the process. -/
def Flow (α : Type) : Type := List Event → Except Abort α × List Event

/-- Sequencing: the second step runs only when the first one returned. -/
def Flow.bind {α β : Type} (m : Flow α) (f : α → Flow β) : Flow β :=
  fun t =>
    match m t with
    | (Except.ok a, t') => f a t'
    | (Except.error e, t') => (Except.error e, t')

instance : Monad Flow where
  pure a := fun t => (Except.ok a, t)
  bind := Flow.bind

/-- Record an external call. -/
def emit (e : Event) : Flow Unit :=
  fun t => (Except.ok (), t ++ [e])

/-- Go `log.Fatalf`: the process exits with the message, nothing after it runs. -/
def logFatalf {α : Type} (msg : String) : Flow α :=
  fun t => (Except.error (Abort.fatal msg), t)

/-- Run a step that makes no external call. -/
def liftExcept {α : Type} (r : Except Abort α) : Flow α :=
  fun t => (r, t)

/-- Text `%s` prints for an `error` value, `nil` included. -/
def fmtErr : Option String → String
  | some err => err
  | none => "%!s(<nil>)"

/-! ## `getTableName` (main.go 45-68) -/

/-- Function `getTableName`; the `log.Fatalf` after the switch is the error result. -/
def getTableName (scanForPolicy : Bool) (accountNumber : String) : Except Abort String :=
  if accountNumber = "596956765480" then
    match scanForPolicy with
    | true => Except.ok "policy-api-policyTable777C1DD9-V7ZQ8ZD0HHTM"
    | _ => Except.ok "quote-api-quoteTableC29293A1-5EAYAUNFL0XD"
  else if accountNumber = "743702672182" then
    match scanForPolicy with
    | true => Except.ok "policy-api-policyTable777C1DD9-1V1XGR44T8OX0"
    | _ => Except.ok "quote-api-quoteTableC29293A1-NW27YUGPQXFP"
  else
    Except.error (Abort.fatal ("Unknown account number " ++ accountNumber))

/-! ## Data access and presentation (main.go 70-139) -/

/-- Function `colorPrintJSON`. -/
def colorPrintJSON {Record : Type} (w : World Record) (unmarshalled : Record) : Flow Unit :=
  match w.marshal unmarshalled with
  | Except.error err => logFatalf ("Failed to color marshal JSON: " ++ err)
  | Except.ok formatted => emit (Event.println formatted)

/-- Function `getItemFromDynamoDB`. -/
def getItemFromDynamoDB {Record : Type} (w : World Record)
    (tableName pk sk : String) : Flow Record := do
  emit (Event.getItem tableName pk sk)
  match w.getItem tableName pk sk with
  | Except.error err => logFatalf ("Query API call failed: " ++ err)
  | Except.ok item =>
    match w.unmarshalMap item with
    | Except.error err => logFatalf ("Failed to unmarshal DynamoDB item: " ++ err)
    | Except.ok unmarshalled => pure unmarshalled

/-- Function `queryPolicyTableByPolicyID`; the result is `items.Items`. -/
def queryPolicyTableByPolicyID {Record : Type} (w : World Record)
    (tableName policyID : String) : Flow (List Item) := do
  emit (Event.query tableName ("policy/" ++ policyID))
  match w.query tableName ("policy/" ++ policyID) with
  | Except.error err => logFatalf ("Query API call failed: " ++ err)
  | Except.ok items => pure items

/-! ## Selection of the sort key (main.go 141-153, 269-289) -/

/-- Loop of `getSortKeysFromAllDynamoDBItems`: collects the `_sk` of every item
that has a non-nil string member there; another dynamic type makes the type
assertion panic. -/
def collectSortKeys : List Item → List String → Except Abort (List String)
  | [], sortKeys => Except.ok sortKeys
  | item :: rest, sortKeys =>
    match item.lookup "_sk" with
    | none => collectSortKeys rest sortKeys
    | some AttributeValue.nilMemberS => collectSortKeys rest sortKeys
    | some (AttributeValue.memberS value) => collectSortKeys rest (sortKeys ++ [value])
    | some AttributeValue.otherMember => Except.error Abort.typeAssertionPanic

/-- Function `getSortKeysFromAllDynamoDBItems`. -/
def getSortKeysFromAllDynamoDBItems (items : List Item) : Except Abort (List String) :=
  match collectSortKeys items [] with
  | Except.ok sortKeys => Except.ok (orderPolicySortKeys sortKeys)
  | Except.error e => Except.error e

/-- Function `getSortKeyToInspect`. -/
def getSortKeyToInspect {Record : Type} (w : World Record)
    (cliArgs : CLIArguments) (items : List Item) : Flow String :=
  if cliArgs.autoSelectLatestState then
    pure "STATE"
  else do
    let shown ← liftExcept (getSortKeysFromAllDynamoDBItems items)
    emit (Event.prompt "Select a sort key to inspect" shown)
    match w.promptRun shown with
    | (choice, err) =>
      if err.isSome || choice = "" then
        logFatalf ("Failed to run prompt or no sort key selected: " ++ fmtErr err)
      else
        pure choice

/-! ## The two lookup flows and `main` (main.go 26-43, 155-193, 225-239) -/

/-- Function `getPolicy`. -/
def getPolicy {Record : Type} (w : World Record)
    (tableName : String) (cliArgs : CLIArguments) : Flow Unit := do
  let items ← queryPolicyTableByPolicyID w tableName cliArgs.idToGet
  if items.length = 0 then
    logFatalf ("No items found for ID " ++ cliArgs.idToGet ++ " in table " ++ tableName)
  let sk ← getSortKeyToInspect w cliArgs items
  let row ← getItemFromDynamoDB w tableName ("policy/" ++ cliArgs.idToGet) sk
  colorPrintJSON w row

/-- Function `getQuote`. -/
def getQuote {Record : Type} (w : World Record)
    (tableName : String) (cliArgs : CLIArguments) : Flow Unit := do
  let item ← getItemFromDynamoDB w tableName ("quote/" ++ cliArgs.idToGet) "quote"
  colorPrintJSON w item

/-- Function `getAccountNumber`. -/
def getAccountNumber {Record : Type} (w : World Record) : Flow String := do
  emit Event.getCallerIdentity
  match w.getCallerIdentity with
  | Except.error err => logFatalf ("failed to get caller identity, " ++ err)
  | Except.ok none => logFatalf "No account number found in the response"
  | Except.ok (some account) => pure account

/-- Function `main` from line 29 on; `cliArgs` is the value `cliArguments()`
returned on line 27. -/
def main {Record : Type} (w : World Record) (cliArgs : CLIArguments) : Flow Unit := do
  emit Event.loadDefaultConfig
  match w.loadDefaultConfig with
  | some err => logFatalf ("failed to load configuration, " ++ err)
  | none =>
    let accountNumber ← getAccountNumber w
    let tableName ← liftExcept (getTableName cliArgs.scanForPolicy accountNumber)
    if cliArgs.scanForPolicy then
      getPolicy w tableName cliArgs
    else
      getQuote w tableName cliArgs

/-! ## Sample worlds -/

/-- A testing-account world whose policy partition is empty; records are kept as
their JSON text, and the operator picks the first item shown. -/
def emptyPartitionWorld : World String where
  loadDefaultConfig := none
  getCallerIdentity := Except.ok (some "596956765480")
  query := fun _ _ => Except.ok []
  getItem := fun _ _ _ => Except.ok []
  unmarshalMap := fun _ => Except.ok "null"
  promptRun := fun items => (items.headD "", none)
  marshal := fun r => Except.ok r

/-- A testing-account world whose policy partition holds the versions `v2` and
`v1` and no item with the sort key `STATE`. -/
def versionsOnlyWorld : World String where
  loadDefaultConfig := none
  getCallerIdentity := Except.ok (some "596956765480")
  query := fun _ _ =>
    Except.ok [[("_pk", AttributeValue.memberS "policy/p"), ("_sk", AttributeValue.memberS "v2")],
      [("_pk", AttributeValue.memberS "policy/p"), ("_sk", AttributeValue.memberS "v1")]]
  getItem := fun _ _ _ => Except.ok []
  unmarshalMap := fun _ => Except.ok "null"
  promptRun := fun items => (items.headD "", none)
  marshal := fun r => Except.ok r

/-- A staging-account world; the store answers every point-get with an item. -/
def stagingWorld : World String where
  loadDefaultConfig := none
  getCallerIdentity := Except.ok (some "743702672182")
  query := fun _ _ => Except.ok []
  getItem := fun _ _ _ => Except.ok [("_sk", AttributeValue.memberS "quote")]
  unmarshalMap := fun _ => Except.ok "\x7b\x7d"
  promptRun := fun items => (items.headD "", none)
  marshal := fun r => Except.ok r

/-- Arguments of a run with `--policy --latest`. -/
def policyLatestArgs : CLIArguments where
  scanForPolicy := true
  idToGet := "550e8400-e29b-41d4-a716-446655440000"
  autoSelectLatestState := true

/-- Arguments of a run without flags. -/
def quoteArgs : CLIArguments where
  scanForPolicy := false
  idToGet := "550e8400-e29b-41d4-a716-446655440000"
  autoSelectLatestState := false

/-! ## Lemmas on the library operations -/

theorem containsFrom_iff (t s : List Char) :
    containsFrom t s = true ↔ t <:+: s := by
  induction s with
  | nil =>
    cases t <;> simp [containsFrom, List.isPrefixOf]
  | cons c cs ih =>
    simp only [containsFrom, Bool.or_eq_true, ih, List.infix_cons_iff]
    rw [ List.isPrefixOf_iff_prefix]

/-- The embedding of `strings.Contains` agrees with contiguous occurrence. -/
theorem stringsContains_iff (s t : String) :
    stringsContains s t = true ↔ t.toList <:+: s.toList :=
  containsFrom_iff _ _

theorem lessChars_iff (a b : List Char) : lessChars a b = true ↔ a < b := by
  induction a generalizing b with
  | nil =>
    cases b with
    | nil => simp [lessChars]
    | cons y ys => simpa [lessChars] using List.nil_lt_cons y ys
  | cons x xs ih =>
    cases b with
    | nil => simp [lessChars]
    | cons y ys =>
      unfold lessChars
      by_cases h : x = y
      · subst h
        rw [if_pos rfl, ih]
        exact List.Lex.cons_iff.symm
      · rw [if_neg h, decide_eq_true_iff]
        constructor
        · intro hlt
          exact List.Lex.rel hlt
        · intro hlex
          cases hlex with
          | cons _ => exact absurd rfl h
          | rel hr => exact hr

/-- The embedding of Go's string `<` is the order of `String`. -/
theorem stringLess_iff (a b : String) : stringLess a b = true ↔ a < b := by
  rw [String.lt_iff_toList_lt]
  exact lessChars_iff _ _

theorem stringLess_eq_false_iff (a b : String) : stringLess b a = false ↔ a ≤ b := by
  rw [← not_lt, ← stringLess_iff]
  simp

theorem insertionSort_congr {α : Type} {r s : α → α → Prop} [DecidableRel r] [DecidableRel s]
    (h : ∀ a b, r a b ↔ s a b) (l : List α) : l.insertionSort r = l.insertionSort s := by
  have hrs : r = s := by
    funext a b
    exact propext (h a b)
  subst hrs
  congr

theorem slicesSort_eq (xs : List String) :
    slicesSort xs = xs.insertionSort (fun a b => a ≤ b) :=
  insertionSort_congr stringLess_eq_false_iff xs

theorem slicesSort_sorted (xs : List String) :
    (slicesSort xs).Sorted (fun a b => a ≤ b) := by
  rw [slicesSort_eq]
  exact List.sorted_insertionSort _ xs

theorem slicesSort_perm (xs : List String) : (slicesSort xs).Perm xs := by
  rw [slicesSort_eq]
  exact List.perm_insertionSort _ xs

theorem slicesSort_of_sorted {xs : List String} (h : xs.Sorted (fun a b => a ≤ b)) :
    slicesSort xs = xs := by
  rw [slicesSort_eq]
  exact h.insertionSort_eq

theorem slicesSort_congr_perm {xs ys : List String} (h : xs.Perm ys) :
    slicesSort xs = slicesSort ys :=
  List.eq_of_perm_of_sorted
    (((slicesSort_perm xs).trans h).trans (slicesSort_perm ys).symm)
    (slicesSort_sorted xs) (slicesSort_sorted ys)

/-- Any ascending arrangement of the same strings is the one `slicesSort` gives,
whatever algorithm produced it. -/
theorem slicesSort_unique {xs ys : List String} (hperm : ys.Perm xs)
    (hsorted : ys.Sorted (fun a b => a ≤ b)) : ys = slicesSort xs :=
  List.eq_of_perm_of_sorted (hperm.trans (slicesSort_perm xs).symm) hsorted
    (slicesSort_sorted xs)

/-! ## Lemmas on `orderPolicySortKeys` -/

theorem splitKeys_eq (l acc₁ acc₂ : List String) :
    splitKeys l acc₁ acc₂
      = (acc₁ ++ l.filter isState, acc₂ ++ l.filter (fun k => !isState k)) := by
  induction l generalizing acc₁ acc₂ with
  | nil => simp [splitKeys]
  | cons sk rest ih =>
    unfold splitKeys
    by_cases h : stringsContains sk "STATE" = true
    · rw [if_pos h, ih]
      simp [List.filter_cons, isState, h]
    · rw [if_neg h, ih]
      simp [List.filter_cons, isState, h]

/-- Closed form: on every input the result is the sorted `STATE` keys followed by
the sorted remaining keys (for fewer than two keys the two coincide). -/
theorem orderPolicySortKeys_eq (l : List String) :
    orderPolicySortKeys l
      = slicesSort (l.filter isState) ++ slicesSort (l.filter (fun k => !isState k)) := by
  unfold orderPolicySortKeys
  split
  · rename_i hlen
    match l, hlen with
    | [], _ => rfl
    | [x], _ =>
      by_cases h : isState x = true
      · simp [List.filter_cons, h, slicesSort]
      · simp [List.filter_cons, h, slicesSort]
    | _ :: _ :: _, hlen =>
      simp only [List.length_cons] at hlen
      omega
  · simp [splitKeys_eq]

theorem mem_slicesSort {xs : List String} {a : String} : a ∈ slicesSort xs ↔ a ∈ xs :=
  (slicesSort_perm xs).mem_iff

/-- Every earlier key relates to every later key of the result: a `STATE` key is
never preceded by another kind of key, and two keys of the same kind ascend. -/
theorem orderPolicySortKeys_pairwise (keys : List String) :
    (orderPolicySortKeys keys).Pairwise
      (fun a b => (isState b = true → isState a = true) ∧ (isState a = isState b → a ≤ b)) := by
  rw [orderPolicySortKeys_eq, List.pairwise_append]
  refine ⟨?_, ?_, ?_⟩
  · refine (slicesSort_sorted _).imp_of_mem ?_
    intro a b ha _ hab
    rw [mem_slicesSort, List.mem_filter] at ha
    exact ⟨fun _ => ha.2, fun _ => hab⟩
  · refine (slicesSort_sorted _).imp_of_mem ?_
    intro a b _ hb hab
    rw [mem_slicesSort, List.mem_filter] at hb
    refine ⟨fun h => ?_, fun _ => hab⟩
    simp [h] at hb
  · intro a ha b hb
    rw [mem_slicesSort, List.mem_filter] at ha hb
    refine ⟨fun _ => ha.2, fun h => ?_⟩
    have hb2 := hb.2
    rw [← h, ha.2] at hb2
    simp at hb2

theorem pairwise_getElem? {α : Type} {R : α → α → Prop} {l : List α} (h : l.Pairwise R)
    {i j : Nat} {a b : α} (hij : i < j) (ha : l[i]? = some a) (hb : l[j]? = some b) :
    R a b := by
  obtain ⟨hi, rfl⟩ := List.getElem?_eq_some_iff.mp ha
  obtain ⟨hj, rfl⟩ := List.getElem?_eq_some_iff.mp hb
  exact List.pairwise_iff_getElem.mp h i j hi hj hij

/-- When no key containing `STATE` sorts below the exact key `STATE` (as when all
of them start with it), a list holding `STATE` has it first in the result. -/
theorem orderPolicySortKeys_head_of_min (keys : List String) (hmem : "STATE" ∈ keys)
    (hmin : ∀ k ∈ keys, stringsContains k "STATE" = true → "STATE" ≤ k) :
    (orderPolicySortKeys keys).head? = some "STATE" := by
  rw [orderPolicySortKeys_eq]
  have hin : "STATE" ∈ slicesSort (keys.filter isState) := by
    rw [mem_slicesSort, List.mem_filter]
    exact ⟨hmem, by decide⟩
  have hsorted := slicesSort_sorted (keys.filter isState)
  have hsub : ∀ a ∈ slicesSort (keys.filter isState), "STATE" ≤ a := by
    intro a ha
    rw [mem_slicesSort, List.mem_filter] at ha
    exact hmin a ha.1 ha.2
  cases hA : slicesSort (keys.filter isState) with
  | nil =>
    rw [hA] at hin
    cases hin
  | cons a rest =>
    rw [hA] at hin hsorted hsub
    have hle : "STATE" ≤ a := hsub a (List.mem_cons_self a rest)
    have hge : a ≤ "STATE" := by
      rcases List.mem_cons.mp hin with h | h
      · exact le_of_eq h.symm
      · exact List.rel_of_sorted_cons hsorted "STATE" h
    simp [le_antisymm hge hle]

/-! ## The orderer: settled claims -/

/-- C1: in the result of `orderPolicySortKeys`, every key containing `STATE` sits
at a smaller index than every key not containing it, the `STATE` keys ascend
lexicographically, the other keys ascend lexicographically, and the keys
`STATE#2, STATE#1, v1, v3, v2` come out as `STATE#1, STATE#2, v1, v2, v3`. -/
theorem orderPolicySortKeys_state_first_sorted (keys : List String) :
    (∀ (i j : Nat) (a b : String),
        (orderPolicySortKeys keys)[i]? = some a → (orderPolicySortKeys keys)[j]? = some b →
        stringsContains a "STATE" = true → stringsContains b "STATE" = false → i < j)
    ∧ (∀ (i j : Nat) (a b : String),
        (orderPolicySortKeys keys)[i]? = some a → (orderPolicySortKeys keys)[j]? = some b →
        stringsContains a "STATE" = true → stringsContains b "STATE" = true → i < j → a ≤ b)
    ∧ (∀ (i j : Nat) (a b : String),
        (orderPolicySortKeys keys)[i]? = some a → (orderPolicySortKeys keys)[j]? = some b →
        stringsContains a "STATE" = false → stringsContains b "STATE" = false → i < j → a ≤ b)
    ∧ orderPolicySortKeys ["STATE#2", "STATE#1", "v1", "v3", "v2"]
        = ["STATE#1", "STATE#2", "v1", "v2", "v3"] := by
  have hp := orderPolicySortKeys_pairwise keys
  refine ⟨?_, ?_, ?_, by decide⟩
  · intro i j a b ha hb hsa hsb
    rcases Nat.lt_trichotomy i j with hlt | heq | hgt
    · exact hlt
    · subst heq
      rw [ha] at hb
      cases hb
      rw [hsa] at hsb
      cases hsb
    · have h := (pairwise_getElem? hp hgt hb ha).1 hsa
      simp only [isState] at h
      rw [hsb] at h
      cases h
  · intro i j a b ha hb hsa hsb hij
    exact (pairwise_getElem? hp hij ha hb).2 (by simp only [isState]; rw [hsa, hsb])
  · intro i j a b ha hb hsa hsb hij
    exact (pairwise_getElem? hp hij ha hb).2 (by simp only [isState]; rw [hsa, hsb])

theorem orderPolicySortKeys_state_first_sorted_witness :
    ((orderPolicySortKeys ["v1", "STATE#2", "STATE#1"])[1]? = some "STATE#2"
      ∧ (orderPolicySortKeys ["v1", "STATE#2", "STATE#1"])[2]? = some "v1"
      ∧ stringsContains "STATE#2" "STATE" = true ∧ stringsContains "v1" "STATE" = false
      ∧ 1 < 2)
    ∧ ((orderPolicySortKeys ["v1", "STATE#2", "STATE#1"])[0]? = some "STATE#1"
      ∧ stringsContains "STATE#1" "STATE" = true ∧ 0 < 1 ∧ "STATE#1" ≤ "STATE#2")
    ∧ ((orderPolicySortKeys ["v2", "STATE", "v1"])[1]? = some "v1"
      ∧ (orderPolicySortKeys ["v2", "STATE", "v1"])[2]? = some "v2"
      ∧ stringsContains "v1" "STATE" = false ∧ stringsContains "v2" "STATE" = false
      ∧ 1 < 2 ∧ "v1" ≤ "v2") :=
  ⟨⟨by decide, by decide, by decide, by decide,
      (orderPolicySortKeys_state_first_sorted ["v1", "STATE#2", "STATE#1"]).1 1 2 "STATE#2" "v1"
        (by decide) (by decide) (by decide) (by decide)⟩,
    ⟨by decide, by decide, by decide,
      (orderPolicySortKeys_state_first_sorted ["v1", "STATE#2", "STATE#1"]).2.1 0 1
        "STATE#1" "STATE#2" (by decide) (by decide) (by decide) (by decide) (by decide)⟩,
    ⟨by decide, by decide, by decide, by decide, by decide,
      (orderPolicySortKeys_state_first_sorted ["v2", "STATE", "v1"]).2.2.1 1 2
        "v1" "v2" (by decide) (by decide) (by decide) (by decide) (by decide)⟩⟩

/-- C3: a list of sort keys of length 0 or 1 is returned as it is. -/
theorem orderPolicySortKeys_short (keys : List String)
    (h : keys.length = 0 ∨ keys.length = 1) : orderPolicySortKeys keys = keys := by
  unfold orderPolicySortKeys
  rw [if_pos (by omega)]

theorem orderPolicySortKeys_short_witness :
    (["v1"] : List String).length = 1 ∧ orderPolicySortKeys ["v1"] = ["v1"] :=
  ⟨rfl, orderPolicySortKeys_short ["v1"] (Or.inr rfl)⟩

/-- C4: `orderPolicySortKeys` is idempotent. -/
theorem orderPolicySortKeys_idempotent (keys : List String) :
    orderPolicySortKeys (orderPolicySortKeys keys) = orderPolicySortKeys keys := by
  rw [orderPolicySortKeys_eq (orderPolicySortKeys keys), orderPolicySortKeys_eq keys]
  have hA : ∀ a ∈ slicesSort (keys.filter isState), isState a = true := by
    intro a ha
    rw [mem_slicesSort, List.mem_filter] at ha
    exact ha.2
  have hB : ∀ b ∈ slicesSort (keys.filter (fun k => !isState k)), isState b = false := by
    intro b hb
    rw [mem_slicesSort, List.mem_filter] at hb
    simpa using hb.2
  have h1 : List.filter isState (slicesSort (keys.filter isState))
      = slicesSort (keys.filter isState) :=
    List.filter_eq_self.mpr hA
  have h2 : List.filter isState (slicesSort (keys.filter (fun k => !isState k))) = [] :=
    List.filter_eq_nil_iff.mpr (fun b hb => by simp [hB b hb])
  have h3 : List.filter (fun k => !isState k) (slicesSort (keys.filter isState)) = [] :=
    List.filter_eq_nil_iff.mpr (fun a ha => by simp [hA a ha])
  have h4 : List.filter (fun k => !isState k) (slicesSort (keys.filter (fun k => !isState k)))
      = slicesSort (keys.filter (fun k => !isState k)) :=
    List.filter_eq_self.mpr (fun b hb => by simp [hB b hb])
  rw [List.filter_append, List.filter_append, h1, h2, h3, h4, List.append_nil, List.nil_append,
    slicesSort_of_sorted (slicesSort_sorted _), slicesSort_of_sorted (slicesSort_sorted _)]

/-- C5 (the code departs from it): the input holds the exact key `STATE`, yet the
first key of the result is `OLD_STATE`, which contains `STATE` and sorts below it. -/
theorem orderPolicySortKeys_STATE_not_first :
    "STATE" ∈ ["STATE", "OLD_STATE"]
    ∧ orderPolicySortKeys ["STATE", "OLD_STATE"] = ["OLD_STATE", "STATE"]
    ∧ (orderPolicySortKeys ["STATE", "OLD_STATE"]).head? ≠ some "STATE" := by
  refine ⟨by decide, by decide, by decide⟩

/-- C9: the result of `orderPolicySortKeys` is a permutation of its input: equal
length, and every string occurs as many times in the result as in the input. -/
theorem orderPolicySortKeys_perm (keys : List String) :
    (orderPolicySortKeys keys).Perm keys
    ∧ (orderPolicySortKeys keys).length = keys.length
    ∧ ∀ s : String, (orderPolicySortKeys keys).count s = keys.count s := by
  have hperm : (orderPolicySortKeys keys).Perm keys := by
    rw [orderPolicySortKeys_eq]
    refine ((slicesSort_perm _).append (slicesSort_perm _)).trans ?_
    exact List.filter_append_perm isState keys
  exact ⟨hperm, hperm.length_eq, fun s => hperm.count_eq s⟩

/-- C10: two lists of sort keys that are permutations of each other get the same
result. -/
theorem orderPolicySortKeys_perm_invariant (keys₁ keys₂ : List String)
    (h : keys₁.Perm keys₂) : orderPolicySortKeys keys₁ = orderPolicySortKeys keys₂ := by
  rw [orderPolicySortKeys_eq, orderPolicySortKeys_eq,
    slicesSort_congr_perm (h.filter isState),
    slicesSort_congr_perm (h.filter (fun k => !isState k))]

theorem orderPolicySortKeys_perm_invariant_witness :
    (["v2", "STATE", "v1"] : List String).Perm ["STATE", "v2", "v1"]
    ∧ orderPolicySortKeys ["v2", "STATE", "v1"] = orderPolicySortKeys ["STATE", "v2", "v1"] :=
  ⟨List.Perm.swap "STATE" "v2" ["v1"],
    orderPolicySortKeys_perm_invariant ["v2", "STATE", "v1"] ["STATE", "v2", "v1"]
      (List.Perm.swap "STATE" "v2" ["v1"])⟩

/-! ## The table resolver: settled claim -/

/-- C2: `getTableName` is the four-entry table over the two known accounts and the
two modes, and for every other account number, in either mode, it ends in
`log.Fatalf` instead of returning a table name; it fails exactly when the account
number is neither of the two. -/
theorem getTableName_table :
    getTableName true "596956765480" = Except.ok "policy-api-policyTable777C1DD9-V7ZQ8ZD0HHTM"
    ∧ getTableName false "596956765480" = Except.ok "quote-api-quoteTableC29293A1-5EAYAUNFL0XD"
    ∧ getTableName true "743702672182" = Except.ok "policy-api-policyTable777C1DD9-1V1XGR44T8OX0"
    ∧ getTableName false "743702672182" = Except.ok "quote-api-quoteTableC29293A1-NW27YUGPQXFP"
    ∧ (∀ (scanForPolicy : Bool) (accountNumber : String),
        accountNumber ≠ "596956765480" → accountNumber ≠ "743702672182" →
        getTableName scanForPolicy accountNumber
          = Except.error (Abort.fatal ("Unknown account number " ++ accountNumber)))
    ∧ (∀ (scanForPolicy : Bool) (accountNumber : String),
        (∃ e, getTableName scanForPolicy accountNumber = Except.error e)
          ↔ (accountNumber ≠ "596956765480" ∧ accountNumber ≠ "743702672182")) := by
  have hfail : ∀ (scanForPolicy : Bool) (accountNumber : String),
      accountNumber ≠ "596956765480" → accountNumber ≠ "743702672182" →
      getTableName scanForPolicy accountNumber
        = Except.error (Abort.fatal ("Unknown account number " ++ accountNumber)) := by
    intro b acc h1 h2
    unfold getTableName
    rw [if_neg h1, if_neg h2]
  refine ⟨rfl, rfl, rfl, rfl, hfail, ?_⟩
  intro b acc
  constructor
  · rintro ⟨e, he⟩
    refine ⟨?_, ?_⟩
    · rintro rfl
      cases b <;> cases he
    · rintro rfl
      cases b <;> cases he
  · rintro ⟨h1, h2⟩
    exact ⟨_, hfail b acc h1 h2⟩

theorem getTableName_table_witness :
    ("000000000000" : String) ≠ "596956765480" ∧ ("000000000000" : String) ≠ "743702672182"
    ∧ getTableName true "000000000000"
        = Except.error (Abort.fatal ("Unknown account number " ++ "000000000000")) :=
  ⟨by decide, by decide,
    getTableName_table.2.2.2.2.1 true "000000000000" (by decide) (by decide)⟩

/-! ## The lookup flows: settled claims -/

/-- C6: in `getPolicy`, when the partition query returns zero items the run ends in
the fatal error `No items found ...` and the only external call made is the query:
no prompt and no point-get, whatever the id, the table name and the
`autoSelectLatestState` flag. -/
theorem getPolicy_no_items {Record : Type} (w : World Record) (tableName : String)
    (cliArgs : CLIArguments)
    (h : w.query tableName ("policy/" ++ cliArgs.idToGet) = Except.ok []) :
    getPolicy w tableName cliArgs []
      = (Except.error (Abort.fatal
            ("No items found for ID " ++ cliArgs.idToGet ++ " in table " ++ tableName)),
          [Event.query tableName ("policy/" ++ cliArgs.idToGet)]) := by
  simp [getPolicy, queryPolicyTableByPolicyID, bind, Flow.bind, emit, h, pure, logFatalf]

theorem getPolicy_no_items_witness :
    emptyPartitionWorld.query "policy-api-policyTable777C1DD9-V7ZQ8ZD0HHTM"
        ("policy/" ++ policyLatestArgs.idToGet) = Except.ok []
    ∧ getPolicy emptyPartitionWorld "policy-api-policyTable777C1DD9-V7ZQ8ZD0HHTM"
        policyLatestArgs []
      = (Except.error (Abort.fatal
            ("No items found for ID " ++ policyLatestArgs.idToGet ++ " in table "
              ++ "policy-api-policyTable777C1DD9-V7ZQ8ZD0HHTM")),
          [Event.query "policy-api-policyTable777C1DD9-V7ZQ8ZD0HHTM"
            ("policy/" ++ policyLatestArgs.idToGet)]) :=
  ⟨rfl, getPolicy_no_items emptyPartitionWorld "policy-api-policyTable777C1DD9-V7ZQ8ZD0HHTM"
    policyLatestArgs rfl⟩

/-- The trace of a point-get followed by the print: the one `GetItem` call, then
at most the printed text. -/
theorem getItem_print_trace {Record : Type} (w : World Record) (tableName pk sk : String)
    (t : List Event) :
    ∃ rest, ((getItemFromDynamoDB w tableName pk sk >>= colorPrintJSON w) t).2
        = t ++ Event.getItem tableName pk sk :: rest
      ∧ (rest = [] ∨ ∃ text, rest = [Event.println text]) := by
  simp only [getItemFromDynamoDB, colorPrintJSON, bind, Flow.bind, emit, pure, logFatalf]
  cases w.getItem tableName pk sk with
  | error err => exact ⟨[], rfl, Or.inl rfl⟩
  | ok item =>
    cases hu : w.unmarshalMap item with
    | error err => exact ⟨[], by simp [hu, logFatalf], Or.inl rfl⟩
    | ok r =>
      cases hm : w.marshal r with
      | error err => exact ⟨[], by simp [hu, hm, logFatalf], Or.inl rfl⟩
      | ok text =>
        exact ⟨[Event.println text], by simp [hu, hm, emit], Or.inr ⟨text, rfl⟩⟩

/-- C7: with `autoSelectLatestState` set, `getSortKeyToInspect` returns the literal
`STATE` for every query result and leaves the trace as it was (the prompt is not
run, the sort keys are not looked at); so for every id and every non-empty query
result `getPolicy` issues its point-get with the key `("policy/" ++ id, "STATE")`,
right after the query and with no prompt in between. -/
theorem getSortKeyToInspect_auto {Record : Type} (w : World Record) (cliArgs : CLIArguments)
    (h : cliArgs.autoSelectLatestState = true) :
    (∀ (items : List Item) (t : List Event),
        getSortKeyToInspect w cliArgs items t = (Except.ok "STATE", t))
    ∧ (∀ (tableName : String) (items : List Item),
        w.query tableName ("policy/" ++ cliArgs.idToGet) = Except.ok items → items ≠ [] →
        ∃ rest, (getPolicy w tableName cliArgs []).2
            = [Event.query tableName ("policy/" ++ cliArgs.idToGet),
                Event.getItem tableName ("policy/" ++ cliArgs.idToGet) "STATE"] ++ rest
          ∧ (rest = [] ∨ ∃ text, rest = [Event.println text])) := by
  have hsel : ∀ (items : List Item) (t : List Event),
      getSortKeyToInspect w cliArgs items t = (Except.ok "STATE", t) := by
    intro items t
    simp [getSortKeyToInspect, h, pure]
  refine ⟨hsel, ?_⟩
  intro tableName items hq hne
  have hlen : ¬ items.length = 0 := by
    intro h0
    exact hne (List.length_eq_zero.mp h0)
  obtain ⟨rest, hrest, hshape⟩ := getItem_print_trace w tableName
    ("policy/" ++ cliArgs.idToGet) "STATE" [Event.query tableName ("policy/" ++ cliArgs.idToGet)]
  refine ⟨rest, ?_, hshape⟩
  simp only [List.singleton_append] at hrest
  show _ = Event.query tableName ("policy/" ++ cliArgs.idToGet)
    :: Event.getItem tableName ("policy/" ++ cliArgs.idToGet) "STATE" :: rest
  rw [← hrest]
  simp [getPolicy, queryPolicyTableByPolicyID, bind, Flow.bind, emit, hq, pure, hlen, hsel]

theorem getSortKeyToInspect_auto_witness :
    policyLatestArgs.autoSelectLatestState = true
    ∧ getSortKeyToInspect versionsOnlyWorld policyLatestArgs
        [[("_sk", AttributeValue.memberS "v2")], [("_sk", AttributeValue.memberS "v1")]] []
      = (Except.ok "STATE", [])
    ∧ ∃ rest, (getPolicy versionsOnlyWorld "policy-api-policyTable777C1DD9-V7ZQ8ZD0HHTM"
          policyLatestArgs []).2
        = [Event.query "policy-api-policyTable777C1DD9-V7ZQ8ZD0HHTM"
              ("policy/" ++ policyLatestArgs.idToGet),
            Event.getItem "policy-api-policyTable777C1DD9-V7ZQ8ZD0HHTM"
              ("policy/" ++ policyLatestArgs.idToGet) "STATE"] ++ rest
      ∧ (rest = [] ∨ ∃ text, rest = [Event.println text]) :=
  ⟨rfl, (getSortKeyToInspect_auto versionsOnlyWorld policyLatestArgs rfl).1
      [[("_sk", AttributeValue.memberS "v2")], [("_sk", AttributeValue.memberS "v1")]] [],
    (getSortKeyToInspect_auto versionsOnlyWorld policyLatestArgs rfl).2
      "policy-api-policyTable777C1DD9-V7ZQ8ZD0HHTM" _ rfl (List.cons_ne_nil _ _)⟩

/-- C8: in quote mode the run issues exactly one point-get, with the partition key
`"quote/" ++ id` and the sort key `quote`, against the quote table of the account:
whatever table `getTableName` gives in quote mode for the caller's account, which
is `quote-api-quoteTableC29293A1-5EAYAUNFL0XD` for account `596956765480` and
`quote-api-quoteTableC29293A1-NW27YUGPQXFP` for account `743702672182`.  It makes
no query and no prompt, and `getQuote` and `main` do the same for both values of
`autoSelectLatestState`. -/
theorem getQuote_single_get {Record : Type} (w : World Record) (cliArgs : CLIArguments) :
    (∀ tableName : String, ∃ rest, (getQuote w tableName cliArgs []).2
          = Event.getItem tableName ("quote/" ++ cliArgs.idToGet) "quote" :: rest
        ∧ (rest = [] ∨ ∃ text, rest = [Event.println text]))
    ∧ (∀ (tableName : String) (latest : Bool),
        getQuote w tableName { cliArgs with autoSelectLatestState := latest }
          = getQuote w tableName cliArgs)
    ∧ (∀ accountNumber tableName : String,
        cliArgs.scanForPolicy = false → w.loadDefaultConfig = none →
        w.getCallerIdentity = Except.ok (some accountNumber) →
        getTableName false accountNumber = Except.ok tableName →
        ∃ rest, (main w cliArgs []).2
            = [Event.loadDefaultConfig, Event.getCallerIdentity,
                Event.getItem tableName ("quote/" ++ cliArgs.idToGet) "quote"] ++ rest
          ∧ (rest = [] ∨ ∃ text, rest = [Event.println text]))
    ∧ (cliArgs.scanForPolicy = false → w.loadDefaultConfig = none →
        w.getCallerIdentity = Except.ok (some "596956765480") →
        ∃ rest, (main w cliArgs []).2
            = [Event.loadDefaultConfig, Event.getCallerIdentity,
                Event.getItem "quote-api-quoteTableC29293A1-5EAYAUNFL0XD"
                  ("quote/" ++ cliArgs.idToGet) "quote"] ++ rest
          ∧ (rest = [] ∨ ∃ text, rest = [Event.println text]))
    ∧ (cliArgs.scanForPolicy = false → w.loadDefaultConfig = none →
        w.getCallerIdentity = Except.ok (some "743702672182") →
        ∃ rest, (main w cliArgs []).2
            = [Event.loadDefaultConfig, Event.getCallerIdentity,
                Event.getItem "quote-api-quoteTableC29293A1-NW27YUGPQXFP"
                  ("quote/" ++ cliArgs.idToGet) "quote"] ++ rest
          ∧ (rest = [] ∨ ∃ text, rest = [Event.println text]))
    ∧ (cliArgs.scanForPolicy = false → ∀ latest : Bool,
        main w { cliArgs with autoSelectLatestState := latest } = main w cliArgs) := by
  have hgen : ∀ accountNumber tableName : String,
      cliArgs.scanForPolicy = false → w.loadDefaultConfig = none →
      w.getCallerIdentity = Except.ok (some accountNumber) →
      getTableName false accountNumber = Except.ok tableName →
      ∃ rest, (main w cliArgs []).2
          = [Event.loadDefaultConfig, Event.getCallerIdentity,
              Event.getItem tableName ("quote/" ++ cliArgs.idToGet) "quote"] ++ rest
        ∧ (rest = [] ∨ ∃ text, rest = [Event.println text]) := by
    intro accountNumber tableName hmode hcfg hid htable
    obtain ⟨rest, hrest, hshape⟩ := getItem_print_trace w tableName
      ("quote/" ++ cliArgs.idToGet) "quote" [Event.loadDefaultConfig, Event.getCallerIdentity]
    refine ⟨rest, ?_, hshape⟩
    have hrest2 : ((getItemFromDynamoDB w tableName ("quote/" ++ cliArgs.idToGet) "quote"
          >>= colorPrintJSON w) [Event.loadDefaultConfig, Event.getCallerIdentity]).2
        = [Event.loadDefaultConfig, Event.getCallerIdentity,
            Event.getItem tableName ("quote/" ++ cliArgs.idToGet) "quote"] ++ rest := hrest
    rw [← hrest2]
    simp [main, getAccountNumber, getQuote, liftExcept, bind, Flow.bind, emit,
      pure, hmode, hcfg, hid, htable]
  refine ⟨?_, ?_, hgen, ?_, ?_, ?_⟩
  · intro tableName
    obtain ⟨rest, hrest, hshape⟩ := getItem_print_trace w tableName
      ("quote/" ++ cliArgs.idToGet) "quote" []
    exact ⟨rest, hrest, hshape⟩
  · intro tableName latest
    rfl
  · intro hmode hcfg hid
    exact hgen "596956765480" "quote-api-quoteTableC29293A1-5EAYAUNFL0XD" hmode hcfg hid rfl
  · intro hmode hcfg hid
    exact hgen "743702672182" "quote-api-quoteTableC29293A1-NW27YUGPQXFP" hmode hcfg hid rfl
  · intro hmode latest
    simp [main, getQuote, hmode]

theorem getQuote_single_get_witness :
    quoteArgs.scanForPolicy = false ∧ emptyPartitionWorld.loadDefaultConfig = none
    ∧ emptyPartitionWorld.getCallerIdentity = Except.ok (some "596956765480")
    ∧ getTableName false "596956765480"
        = Except.ok "quote-api-quoteTableC29293A1-5EAYAUNFL0XD"
    ∧ (∃ rest, (main emptyPartitionWorld quoteArgs []).2
          = [Event.loadDefaultConfig, Event.getCallerIdentity,
              Event.getItem "quote-api-quoteTableC29293A1-5EAYAUNFL0XD"
                ("quote/" ++ quoteArgs.idToGet) "quote"] ++ rest
        ∧ (rest = [] ∨ ∃ text, rest = [Event.println text]))
    ∧ (∃ rest, (main stagingWorld quoteArgs []).2
          = [Event.loadDefaultConfig, Event.getCallerIdentity,
              Event.getItem "quote-api-quoteTableC29293A1-NW27YUGPQXFP"
                ("quote/" ++ quoteArgs.idToGet) "quote"] ++ rest
        ∧ (rest = [] ∨ ∃ text, rest = [Event.println text]))
    ∧ main emptyPartitionWorld { quoteArgs with autoSelectLatestState := true }
        = main emptyPartitionWorld quoteArgs :=
  ⟨rfl, rfl, rfl, rfl,
    (getQuote_single_get emptyPartitionWorld quoteArgs).2.2.1
      "596956765480" "quote-api-quoteTableC29293A1-5EAYAUNFL0XD" rfl rfl rfl rfl,
    (getQuote_single_get stagingWorld quoteArgs).2.2.2.2.1 rfl rfl rfl,
    (getQuote_single_get emptyPartitionWorld quoteArgs).2.2.2.2.2 rfl true⟩

end QuotePrinter
